import Mathlib

/-!
Tenant token verification client (`client/tenant/client_tenantadm.go`)

A shallow embedding of the Go package `tenant`: the constructor `NewClient` and
the single operation `VerifyToken`, together with small models of the library
values the code manipulates (`pkg/errors` error values, `context.Context`,
`net/http` requests and responses).

Go `error` results are `Option GoError` (`none` is `nil`).  The effects of a call
that the specification talks about (the transport invocation, closing of the
response body, release of the derived context) are recorded in an event trace;
`defer` statements are kept on a stack that is run, last deferred first, when the
function exits.
-/

namespace Tenant

/-! ## Error values (`github.com/pkg/errors`) -/

/-- Go error values, compared by identity.
`sentinel` is the one `*fundamental` allocated at package initialisation and held by
the package variable `ErrTokenVerificationFailed`; `fundamental` is any other value
made by `errors.New` or `errors.Errorf` (a different pointer, whatever its message);
`withMessage` and `withStack` are the two layers added by `errors.Wrap` (the recorded
call stack is not modelled); `foreign` is an error of another package (`net`, `url`,
`context`, ...). -/
inductive GoError where
  | sentinel : GoError
  | fundamental (msg : String) : GoError
  | withMessage (cause : GoError) (msg : String) : GoError
  | withStack (err : GoError) : GoError
  | foreign (msg : String) : GoError
  deriving DecidableEq, Repr

/-- The method `Error()` of each error value. -/
def GoError.Error : GoError → String
  | .sentinel => "token verification failed"
  | .fundamental msg => msg
  | .withMessage cause msg => msg ++ ": " ++ cause.Error
  | .withStack err => err.Error
  | .foreign msg => msg

/-- The method `Cause()` of the values that have one (`withStack`, `withMessage`):
the error directly underneath. -/
def GoError.causer : GoError → Option GoError
  | .withMessage cause _ => some cause
  | .withStack err => some err
  | _ => none

/-- Go `errors.Cause`: follow `Cause()` until a value without that method is reached. -/
def Cause : GoError → GoError
  | .withMessage cause _ => Cause cause
  | .withStack err => Cause err
  | e => e

/-- Go `errors.Wrap(err, message)`: `nil` for a `nil` error, otherwise a `withStack`
around a `withMessage` around `err`. -/
def Wrap (err : Option GoError) (message : String) : Option GoError :=
  match err with
  | none => none
  | some e => some (.withStack (.withMessage e message))

/-- Go `errors.Errorf(format, args...)`, given the already formatted message:
a fresh `*fundamental`. -/
def Errorf (formatted : String) : GoError := .fundamental formatted

/-- The `%v` rendering by `fmt` of a Go `int`: decimal, with a leading minus sign for
negative values. -/
def fmtInt (n : Int) : String := toString n

/-- The number that a list of decimal digit characters denotes, most significant digit
first. -/
def decimalValue (cs : List Char) : Nat :=
  cs.foldl (fun acc c => 10 * acc + (c.toNat - 48)) 0

/-! ## Package constants and variables -/

/-- Nanoseconds in `time.Second`; a `time.Duration` is a count of nanoseconds. -/
def Second : Int := 1000000000

def TenantVerifyUri : String := "/api/internal/v1/tenantadm/tenants/verify"

def defaultReqTimeout : Int := 10 * Second

def ErrTokenVerificationFailed : GoError := .sentinel

def MethodPost : String := "POST"

def StatusOK : Int := 200

def StatusUnauthorized : Int := 401

/-! ## Contexts (`context`) -/

/-- The two errors a context can report. -/
inductive CtxErr where
  | Canceled
  | DeadlineExceeded
  deriving DecidableEq, Repr

/-- A (non-nil) `context.Context` as it stands when it is handed over: `Err` is what
`ctx.Err()` returns at that moment (`none` while the context is not done) and
`Deadline` is the absolute deadline in nanoseconds, if any. -/
structure Context where
  Err : Option CtxErr
  Deadline : Option Int
  deriving DecidableEq, Repr

/-- Go `context.Background()`. -/
def Background : Context := ⟨none, none⟩

/-- Go `context.WithTimeout(parent, timeout)`, i.e. `WithDeadline(parent, now + timeout)`.
`now` is the clock reading taken by `WithTimeout` and `now + lag` the later reading
taken by `time.Until`.  A parent that is already done makes the child done with the
same error; a parent deadline that is earlier is kept; a deadline that has already
passed makes the child done with `DeadlineExceeded`. -/
def WithTimeout (now : Int) (lag : Nat) (parent : Context) (timeout : Int) : Context :=
  let d := now + timeout
  match parent.Deadline with
  | some cur =>
    if cur < d then
      ⟨parent.Err, some cur⟩
    else
      match parent.Err with
      | some e => ⟨some e, some d⟩
      | none => if d - (now + lag) ≤ 0 then ⟨some .DeadlineExceeded, some d⟩ else ⟨none, some d⟩
  | none =>
    match parent.Err with
    | some e => ⟨some e, some d⟩
    | none => if d - (now + lag) ≤ 0 then ⟨some .DeadlineExceeded, some d⟩ else ⟨none, some d⟩

/-! ## Requests and responses (`net/http`) -/

/-- The parts of a `url.URL` that the model keeps. -/
structure URL where
  Scheme : String
  Host : String
  Path : String
  deriving DecidableEq, Repr

/-- An `http.Header`: header keys with their values, in order of insertion. -/
abbrev Header := List (String × List String)

/-- Bytes allowed in a header field name or a method (an HTTP token). -/
def isTokenChar (c : Char) : Bool :=
  c.isAlphanum || "!#$%&'*+-.^_`|~".data.contains c

/-- The loop of `textproto.canonicalMIMEHeaderKey`: upper case for the first letter
and for a letter after a dash, lower case elsewhere. -/
def canonLoop : Bool → List Char → List Char
  | _, [] => []
  | upper, c :: cs =>
    let c1 := if upper && c.isLower then c.toUpper
              else if !upper && c.isUpper then c.toLower
              else c
    c1 :: canonLoop (c1 == '-') cs

/-- Go `textproto.CanonicalMIMEHeaderKey`: a key holding a byte that is not a token byte
is returned unchanged. -/
def CanonicalMIMEHeaderKey (s : String) : String :=
  if s.data.all isTokenChar then String.mk (canonLoop true s.data) else s

/-- The values stored under an already canonical key. -/
def Header.get (h : Header) (k : String) : List String :=
  (h.lookup k).getD []

/-- Store `vs` under the canonical key `k`. -/
def Header.set : Header → String → List String → Header
  | [], k, vs => [(k, vs)]
  | (k1, vs1) :: rest, k, vs =>
    if k1 = k then (k, vs) :: rest else (k1, vs1) :: Header.set rest k vs

/-- Go `Header.Add(key, value)`: append `value` to the values of the canonical key. -/
def Header.Add (h : Header) (key value : String) : Header :=
  let k := CanonicalMIMEHeaderKey key
  Header.set h k (Header.get h k ++ [value])

/-- Go `Header.Values(key)`: all values of the canonical key. -/
def Header.Values (h : Header) (key : String) : List String :=
  Header.get h (CanonicalMIMEHeaderKey key)

/-- An `http.Request`.  `Body` is `none` for a request without body. -/
structure Request where
  ctx : Context
  Method : String
  URL : URL
  Header : Header
  Body : Option Nat
  Host : String
  deriving DecidableEq, Repr

/-- Go `Request.WithContext(ctx)`: a copy of the request with its context replaced. -/
def Request.WithContext (r : Request) (ctx : Context) : Request :=
  { r with ctx := ctx }

/-- An `http.Response`: the status code and the field `Body`, an interface value that
is either `nil` (`none`) or a body, named by a handle. -/
structure Response where
  StatusCode : Int
  Body : Option Nat
  deriving DecidableEq, Repr

/-- The results of `Do(req)`: a response pointer and an error, each possibly `nil`. -/
abbrev DoResult := Option Response × Option GoError

/-- An implementation of the interface `client.HttpRunner`, reduced to what its one
method `Do` returns for the request of this call. -/
abbrev HttpRunner := Request → DoResult

/-- Code of this repository and of the standard library that is outside the package:
`utils.JoinURL`, the URL that `http.NewRequest` derives from a raw URL string (or its
parse error), and the two clock readings used by `context.WithTimeout`. -/
structure Env where
  JoinURL : String → String → String
  parseURL : String → Except GoError URL
  now : Int
  lag : Nat

/-- The function `validMethod` of `net/http`: a non-empty HTTP token. -/
def validMethod (method : String) : Bool :=
  method.data.length > 0 && method.data.all isTokenChar

/-- Go `http.NewRequest(method, url, body)`. -/
def NewRequest (env : Env) (method url : String) (body : Option Nat) :
    Except GoError Request :=
  let method := if method = "" then "GET" else method
  if !validMethod method then
    .error (.foreign ("net/http: invalid method " ++ method.quote))
  else
    match env.parseURL url with
    | .error err => .error err
    | .ok u =>
      .ok { ctx := Background, Method := method, URL := u, Header := [],
            Body := body, Host := u.Host }

/-! ## Effects of a call -/

/-- Observable steps of one `VerifyToken` call. -/
inductive Event where
  | WithTimeout (child : Context) : Event
  | Do (req : Request) : Event
  | BodyClose (body : Nat) : Event
  | Cancel (child : Context) : Event
  deriving DecidableEq, Repr

/-- How a call ends: it returns an `error` value, or it panics with a nil dereference
(on a `nil` response, or on a response whose `Body` is `nil`). -/
inductive Outcome where
  | returned (err : Option GoError) : Outcome
  | nilDeref : Outcome
  deriving DecidableEq, Repr

def Event.isDo : Event → Bool
  | .Do _ => true
  | _ => false

def Event.isBodyClose : Event → Bool
  | .BodyClose _ => true
  | _ => false

def Event.isCancel : Event → Bool
  | .Cancel _ => true
  | _ => false

/-- The outcome of a finished call and everything it did, oldest step first. -/
structure Exec where
  ret : Outcome
  trace : List Event
  deriving DecidableEq, Repr

/-- A running call: the steps done so far and the pending `defer`red calls, the most
recently deferred first. -/
structure Frame where
  trace : List Event
  defers : List Event

def Frame.call (f : Frame) (e : Event) : Frame :=
  { f with trace := f.trace ++ [e] }

def Frame.defer (f : Frame) (e : Event) : Frame :=
  { f with defers := e :: f.defers }

/-- Leaving the function (by `return` or by a panic) runs the deferred calls, last
deferred first. -/
def Frame.exit (f : Frame) (o : Outcome) : Exec :=
  ⟨o, f.trace ++ f.defers⟩

/-! ## The package -/

structure Config where
  TenantAdmAddr : String
  Timeout : Int
  deriving DecidableEq, Repr

structure Client where
  conf : Config
  deriving DecidableEq, Repr

def VerifyToken (env : Env) (tc : Client) (ctx : Context) (token : String)
    (client : HttpRunner) : Exec :=
  let f : Frame := ⟨[], []⟩
  match NewRequest env MethodPost (env.JoinURL tc.conf.TenantAdmAddr TenantVerifyUri) none with
  | .error err =>
    f.exit (.returned (Wrap (some err) "failed to create request to tenant administrator"))
  | .ok req =>
    let req := { req with Header := req.Header.Add "Authorization" ("Bearer " ++ token) }
    let ctx := WithTimeout env.now env.lag ctx tc.conf.Timeout
    let f := f.call (.WithTimeout ctx)
    let f := f.defer (.Cancel ctx)
    let sent := req.WithContext ctx
    let f := f.call (.Do sent)
    match client sent with
    | (_, some err) =>
      f.exit (.returned (Wrap (some err) "request to verify token failed"))
    | (none, none) => f.exit .nilDeref
    | (some rsp, none) =>
      match rsp.Body with
      | none => f.exit .nilDeref
      | some body =>
        let f := f.defer (.BodyClose body)
        if rsp.StatusCode = StatusUnauthorized then
          f.exit (.returned (some ErrTokenVerificationFailed))
        else if rsp.StatusCode = StatusOK then
          f.exit (.returned none)
        else
          f.exit (.returned (some (Errorf
            ("token verification request returned unexpected status " ++
              fmtInt rsp.StatusCode))))

def NewClient (c : Config) : Client :=
  let c := if c.Timeout = 0 then { c with Timeout := defaultReqTimeout } else c
  { conf := c }

/-- The request that `VerifyToken` passes to `client.Do` when `http.NewRequest` gave
`req`: `req` with the `Authorization` header added and the derived context attached. -/
def outgoing (env : Env) (tc : Client) (ctx : Context) (token : String) (req : Request) :
    Request :=
  Request.WithContext
    { req with Header := req.Header.Add "Authorization" ("Bearer " ++ token) }
    (WithTimeout env.now env.lag ctx tc.conf.Timeout)

/-- A transport honours contexts when it fails every request whose context is
already done. -/
def HonoursContext (client : HttpRunner) : Prop :=
  ∀ r : Request, r.ctx.Err ≠ none → ∃ orsp e, client r = (orsp, some e)

/-! ## Sample collaborators used to instantiate the theorems -/

/-- A joining function: plain concatenation. -/
def sampleJoin (base url : String) : String := base ++ url

/-- A URL reader that rejects the empty string and strings with a space. -/
def sampleParse (s : String) : Except GoError URL :=
  if s.data.contains ' ' || s.data.isEmpty then .error (.foreign "parse: invalid URL")
  else .ok ⟨"http", "authority", s⟩

def sampleEnv : Env := ⟨sampleJoin, sampleParse, 0, 0⟩

def sampleClient : Client := NewClient ⟨"http://authority", 0⟩

/-- A client whose address has a space in it. -/
def badClient : Client := NewClient ⟨"http://a b", 0⟩

def canceledCtx : Context := ⟨some .Canceled, none⟩

/-- The request that the sample client hands over for the token `abc123`. -/
def sampleSent : Request :=
  { ctx := ⟨none, some 10000000000⟩, Method := "POST",
    URL := ⟨"http", "authority", "http://authority/api/internal/v1/tenantadm/tenants/verify"⟩,
    Header := [("Authorization", ["Bearer abc123"])], Body := none, Host := "authority" }

/-- A transport stub that answers every request with the given status. -/
def statusStub (code : Int) : HttpRunner := fun _ => (some ⟨code, some 7⟩, none)

/-- A transport stub that answers every request with the given status and a response
whose `Body` is `nil`. -/
def noBodyStub (code : Int) : HttpRunner := fun _ => (some ⟨code, none⟩, none)

/-- A transport stub that fails every request with the given error, while also
handing back a response with status 200. -/
def failStub (e : GoError) : HttpRunner := fun _ => (some ⟨200, some 7⟩, some e)

/-- A transport stub that fails a request whose context is done and answers 200
otherwise. -/
def ctxStub : HttpRunner := fun r =>
  match r.ctx.Err with
  | some _ => (none, some (.foreign "context canceled"))
  | none => (some ⟨200, some 7⟩, none)

/-! ## Lemmas on the library models -/

theorem canonical_Authorization : CanonicalMIMEHeaderKey "Authorization" = "Authorization" := by
  decide

theorem validMethod_POST : validMethod MethodPost = true := by decide

theorem digitChar_value (d : Nat) (h : d < 10) : (Nat.digitChar d).toNat - 48 = d := by
  interval_cases d <;> rfl

theorem toDigitsCore_readback (fuel : Nat) : ∀ (n : Nat) (ds : List Char), n < fuel →
    (Nat.toDigitsCore 10 fuel n ds).foldl (fun acc c => 10 * acc + (c.toNat - 48)) 0
      = ds.foldl (fun acc c => 10 * acc + (c.toNat - 48)) n := by
  induction fuel with
  | zero => intro n ds h; omega
  | succ fuel ih =>
    intro n ds h
    have hd : (Nat.digitChar (n % 10)).toNat - 48 = n % 10 :=
      digitChar_value (n % 10) (Nat.mod_lt n (by decide))
    by_cases hz : n / 10 = 0
    · have hn : n % 10 = n := by omega
      rw [hn] at hd
      simp only [Nat.toDigitsCore, hz, if_true, List.foldl_cons, hn, hd, Nat.mul_zero,
        Nat.zero_add]
    · have hlt : n / 10 < fuel := by omega
      simp only [Nat.toDigitsCore, hz, if_false]
      rw [ih (n / 10) _ hlt]
      simp only [List.foldl_cons, hd]
      rw [Nat.div_add_mod]

/-- Reading the decimal digits of `n` back gives `n`. -/
theorem toDigits_readback (n : Nat) : decimalValue (Nat.toDigits 10 n) = n := by
  unfold decimalValue Nat.toDigits
  rw [toDigitsCore_readback (n + 1) n [] (Nat.lt_succ_self n)]
  rfl

/-- The rendering of an `int`: a minus sign when negative, then the decimal digits of
the absolute value. -/
theorem fmtInt_data (n : Int) :
    (fmtInt n).data = (if n < 0 then ['-'] else []) ++ Nat.toDigits 10 n.natAbs := by
  cases n with
  | ofNat m =>
    have : ¬ (Int.ofNat m < 0) := by simp
    simp only [this, if_false, List.nil_append]
    rfl
  | negSucc m =>
    have : Int.negSucc m < 0 := Int.negSucc_lt_zero m
    simp only [this, if_true]
    rfl

theorem NewRequest_POST (env : Env) (url : String) :
    NewRequest env MethodPost url none =
      match env.parseURL url with
      | .error err => .error err
      | .ok u => .ok { ctx := Background, Method := "POST", URL := u, Header := [],
                       Body := none, Host := u.Host } := by
  have h1 : (if MethodPost = "" then "GET" else MethodPost) = "POST" := by decide
  have h2 : validMethod "POST" = true := validMethod_POST
  unfold NewRequest
  simp only [h1, h2]
  rfl

/-! ## The shape of every run of `VerifyToken` -/

theorem VerifyToken_construction_failed (env : Env) (tc : Client) (ctx : Context)
    (token : String) (client : HttpRunner) (err : GoError)
    (h : NewRequest env MethodPost (env.JoinURL tc.conf.TenantAdmAddr TenantVerifyUri) none
          = .error err) :
    VerifyToken env tc ctx token client =
      ⟨.returned (some (.withStack (.withMessage err
          "failed to create request to tenant administrator"))), []⟩ := by
  unfold VerifyToken
  simp only [h]
  rfl

theorem VerifyToken_transport_failed (env : Env) (tc : Client) (ctx : Context)
    (token : String) (client : HttpRunner) (req : Request) (orsp : Option Response)
    (e : GoError)
    (h : NewRequest env MethodPost (env.JoinURL tc.conf.TenantAdmAddr TenantVerifyUri) none
          = .ok req)
    (hdo : client (outgoing env tc ctx token req) = (orsp, some e)) :
    VerifyToken env tc ctx token client =
      ⟨.returned (some (.withStack (.withMessage e "request to verify token failed"))),
       [.WithTimeout (WithTimeout env.now env.lag ctx tc.conf.Timeout),
        .Do (outgoing env tc ctx token req),
        .Cancel (WithTimeout env.now env.lag ctx tc.conf.Timeout)]⟩ := by
  unfold VerifyToken
  simp only [h]
  unfold outgoing at hdo
  simp only [hdo]
  rfl

theorem VerifyToken_nil_response (env : Env) (tc : Client) (ctx : Context)
    (token : String) (client : HttpRunner) (req : Request)
    (h : NewRequest env MethodPost (env.JoinURL tc.conf.TenantAdmAddr TenantVerifyUri) none
          = .ok req)
    (hdo : client (outgoing env tc ctx token req) = (none, none)) :
    VerifyToken env tc ctx token client =
      ⟨.nilDeref,
       [.WithTimeout (WithTimeout env.now env.lag ctx tc.conf.Timeout),
        .Do (outgoing env tc ctx token req),
        .Cancel (WithTimeout env.now env.lag ctx tc.conf.Timeout)]⟩ := by
  unfold VerifyToken
  simp only [h]
  unfold outgoing at hdo
  simp only [hdo]
  rfl

theorem VerifyToken_nil_body (env : Env) (tc : Client) (ctx : Context)
    (token : String) (client : HttpRunner) (req : Request) (rsp : Response)
    (h : NewRequest env MethodPost (env.JoinURL tc.conf.TenantAdmAddr TenantVerifyUri) none
          = .ok req)
    (hdo : client (outgoing env tc ctx token req) = (some rsp, none))
    (hb : rsp.Body = none) :
    VerifyToken env tc ctx token client =
      ⟨.nilDeref,
       [.WithTimeout (WithTimeout env.now env.lag ctx tc.conf.Timeout),
        .Do (outgoing env tc ctx token req),
        .Cancel (WithTimeout env.now env.lag ctx tc.conf.Timeout)]⟩ := by
  unfold VerifyToken
  simp only [h]
  unfold outgoing at hdo
  simp only [hdo, hb]
  rfl

theorem VerifyToken_response (env : Env) (tc : Client) (ctx : Context)
    (token : String) (client : HttpRunner) (req : Request) (rsp : Response) (body : Nat)
    (h : NewRequest env MethodPost (env.JoinURL tc.conf.TenantAdmAddr TenantVerifyUri) none
          = .ok req)
    (hdo : client (outgoing env tc ctx token req) = (some rsp, none))
    (hb : rsp.Body = some body) :
    VerifyToken env tc ctx token client =
      ⟨.returned
        (if rsp.StatusCode = 401 then some ErrTokenVerificationFailed
         else if rsp.StatusCode = 200 then none
         else some (.fundamental ("token verification request returned unexpected status " ++
                fmtInt rsp.StatusCode))),
       [.WithTimeout (WithTimeout env.now env.lag ctx tc.conf.Timeout),
        .Do (outgoing env tc ctx token req),
        .BodyClose body,
        .Cancel (WithTimeout env.now env.lag ctx tc.conf.Timeout)]⟩ := by
  unfold VerifyToken
  simp only [h]
  unfold outgoing at hdo
  simp only [hdo, hb, StatusUnauthorized, StatusOK, Errorf]
  by_cases h1 : rsp.StatusCode = 401
  · simp only [h1, if_true]; rfl
  · by_cases h2 : rsp.StatusCode = 200
    · simp only [h2]; rfl
    · simp only [h1, h2, if_false]; rfl

/-- A `Do` step in the trace means that the request was constructed and that the
step carries the request built from it. -/
theorem sent_request (env : Env) (tc : Client) (ctx : Context) (token : String)
    (client : HttpRunner) (r : Request)
    (hsent : Event.Do r ∈ (VerifyToken env tc ctx token client).trace) :
    ∃ req, NewRequest env MethodPost (env.JoinURL tc.conf.TenantAdmAddr TenantVerifyUri) none
            = .ok req ∧ r = outgoing env tc ctx token req := by
  cases h : NewRequest env MethodPost (env.JoinURL tc.conf.TenantAdmAddr TenantVerifyUri) none with
  | error err =>
    rw [VerifyToken_construction_failed env tc ctx token client err h] at hsent
    simp at hsent
  | ok req =>
    refine ⟨req, rfl, ?_⟩
    rcases hc : client (outgoing env tc ctx token req) with ⟨orsp, oerr⟩
    cases oerr with
    | some e =>
      rw [VerifyToken_transport_failed env tc ctx token client req orsp e h hc] at hsent
      simpa using hsent
    | none =>
      cases orsp with
      | none =>
        rw [VerifyToken_nil_response env tc ctx token client req h hc] at hsent
        simpa using hsent
      | some rsp =>
        cases hb : rsp.Body with
        | none =>
          rw [VerifyToken_nil_body env tc ctx token client req rsp h hc hb] at hsent
          simpa using hsent
        | some body =>
          rw [VerifyToken_response env tc ctx token client req rsp body h hc hb] at hsent
          simpa using hsent

/-! ## The constructor -/

/-- C6: `NewClient` is total (it returns a client for every configuration), the client
keeps the configured address, and its timeout is ten seconds (10 000 000 000 ns) when
the configured timeout is zero and the configured timeout itself otherwise, negative
values included.  The configuration is received by value, so the value of the caller
is the unchanged argument `c`. -/
theorem NewClient_conf (c : Config) :
    (NewClient c).conf.TenantAdmAddr = c.TenantAdmAddr ∧
    (NewClient c).conf.Timeout = (if c.Timeout = 0 then 10000000000 else c.Timeout) ∧
    (c.Timeout < 0 → (NewClient c).conf = c) := by
  unfold NewClient
  by_cases h : c.Timeout = 0
  · simp [h, defaultReqTimeout, Second]
  · simp [h]

theorem NewClient_conf_witness :
    (NewClient ⟨"http://authority", 0⟩).conf.Timeout = 10000000000 ∧
    (NewClient ⟨"http://authority", -5⟩).conf = ⟨"http://authority", -5⟩ :=
  ⟨by decide, (NewClient_conf ⟨"http://authority", -5⟩).2.2 (by decide)⟩

/-! ## Classification of the transport's answer -/

/-- C1, as stated, fails: the transport returns, without error, a response with status
200 whose `Body` is `nil`; `VerifyToken` then panics at `defer rsp.Body.Close()` and
returns nothing, so it does not return `nil`. -/
theorem VerifyToken_status_200_nil_body :
    noBodyStub 200 sampleSent = (some ⟨200, none⟩, none) ∧
    Event.Do sampleSent ∈
      (VerifyToken sampleEnv sampleClient Background "abc123" (noBodyStub 200)).trace ∧
    (VerifyToken sampleEnv sampleClient Background "abc123" (noBodyStub 200)).ret
      = .nilDeref ∧
    (VerifyToken sampleEnv sampleClient Background "abc123" (noBodyStub 200)).ret
      ≠ .returned none := by
  decide

/-- C1, amended: whenever the transport's `Do`, called with the request of this call
(so the request was constructed), returns a response with status 200, a non-nil body and
no error, `VerifyToken` returns `nil`; the token, empty or not, and the configuration
are arbitrary. -/
theorem VerifyToken_status_200 (env : Env) (tc : Client) (ctx : Context) (token : String)
    (client : HttpRunner) (r : Request) (rsp : Response) (body : Nat)
    (hsent : Event.Do r ∈ (VerifyToken env tc ctx token client).trace)
    (hdo : client r = (some rsp, none)) (hbody : rsp.Body = some body)
    (hcode : rsp.StatusCode = 200) :
    (VerifyToken env tc ctx token client).ret = .returned none := by
  obtain ⟨req, hreq, rfl⟩ := sent_request env tc ctx token client r hsent
  rw [VerifyToken_response env tc ctx token client req rsp body hreq hdo hbody]
  simp [hcode]

theorem VerifyToken_status_200_witness :
    (VerifyToken sampleEnv sampleClient Background "" (statusStub 200)).ret
      = .returned none :=
  VerifyToken_status_200 sampleEnv sampleClient Background "" (statusStub 200)
    { sampleSent with Header := [("Authorization", ["Bearer "])] } ⟨200, some 7⟩ 7
    (by decide) rfl rfl rfl

/-- C2, as stated, fails: the transport returns, without error, a response with status
401 whose `Body` is `nil`; `VerifyToken` then panics at `defer rsp.Body.Close()` and
does not return `ErrTokenVerificationFailed`. -/
theorem VerifyToken_status_401_nil_body :
    noBodyStub 401 sampleSent = (some ⟨401, none⟩, none) ∧
    Event.Do sampleSent ∈
      (VerifyToken sampleEnv sampleClient Background "abc123" (noBodyStub 401)).trace ∧
    (VerifyToken sampleEnv sampleClient Background "abc123" (noBodyStub 401)).ret
      = .nilDeref ∧
    (VerifyToken sampleEnv sampleClient Background "abc123" (noBodyStub 401)).ret
      ≠ .returned (some ErrTokenVerificationFailed) := by
  decide

/-- C2, amended: whenever the transport's `Do`, called with the request of this call,
returns a response with status 401, a non-nil body and no error, `VerifyToken` returns
the package variable `ErrTokenVerificationFailed` itself: not wrapped, and with the
message of that variable. -/
theorem VerifyToken_status_401 (env : Env) (tc : Client) (ctx : Context) (token : String)
    (client : HttpRunner) (r : Request) (rsp : Response) (body : Nat)
    (hsent : Event.Do r ∈ (VerifyToken env tc ctx token client).trace)
    (hdo : client r = (some rsp, none)) (hbody : rsp.Body = some body)
    (hcode : rsp.StatusCode = 401) :
    (VerifyToken env tc ctx token client).ret = .returned (some ErrTokenVerificationFailed) ∧
    ErrTokenVerificationFailed.causer = none ∧
    ErrTokenVerificationFailed.Error = "token verification failed" := by
  obtain ⟨req, hreq, rfl⟩ := sent_request env tc ctx token client r hsent
  rw [VerifyToken_response env tc ctx token client req rsp body hreq hdo hbody]
  simp [hcode, ErrTokenVerificationFailed, GoError.causer, GoError.Error]

theorem VerifyToken_status_401_witness :
    (VerifyToken sampleEnv sampleClient Background "abc123" (statusStub 401)).ret
      = .returned (some ErrTokenVerificationFailed) :=
  (VerifyToken_status_401 sampleEnv sampleClient Background "abc123" (statusStub 401)
    sampleSent ⟨401, some 7⟩ 7 (by decide) rfl rfl rfl).1

/-- C3, as stated, fails: the transport returns, without error, a response with status
500 whose `Body` is `nil`; `VerifyToken` then panics at `defer rsp.Body.Close()` and
returns no error value at all. -/
theorem VerifyToken_status_other_nil_body :
    noBodyStub 500 sampleSent = (some ⟨500, none⟩, none) ∧
    Event.Do sampleSent ∈
      (VerifyToken sampleEnv sampleClient Background "abc123" (noBodyStub 500)).trace ∧
    (VerifyToken sampleEnv sampleClient Background "abc123" (noBodyStub 500)).ret
      = .nilDeref ∧
    ¬ ∃ e : GoError,
      (VerifyToken sampleEnv sampleClient Background "abc123" (noBodyStub 500)).ret
        = .returned (some e) := by
  refine ⟨by decide, by decide, by decide, ?_⟩
  rintro ⟨e, he⟩
  have hnil : (VerifyToken sampleEnv sampleClient Background "abc123" (noBodyStub 500)).ret
      = .nilDeref := by decide
  rw [hnil] at he
  cases he

/-- C3, amended: whenever the transport's `Do`, called with the request of this call,
returns without error a response with a non-nil body whose status `s` is neither 200 nor
401, `VerifyToken` returns a non-nil error that is not `ErrTokenVerificationFailed` and
whose message is "token verification request returned unexpected status " followed by
the decimal rendering of `s`: a minus sign when `s` is negative, then the base-10 digits
of the absolute value of `s`, which read back as that value.  The message therefore
contains the rendering. -/
theorem VerifyToken_status_other (env : Env) (tc : Client) (ctx : Context) (token : String)
    (client : HttpRunner) (r : Request) (rsp : Response) (body : Nat)
    (hsent : Event.Do r ∈ (VerifyToken env tc ctx token client).trace)
    (hdo : client r = (some rsp, none)) (hbody : rsp.Body = some body)
    (h200 : rsp.StatusCode ≠ 200) (h401 : rsp.StatusCode ≠ 401) :
    ∃ e : GoError,
      (VerifyToken env tc ctx token client).ret = .returned (some e) ∧
      e ≠ ErrTokenVerificationFailed ∧
      e.Error = "token verification request returned unexpected status " ++
                  fmtInt rsp.StatusCode ∧
      e.Error.data = "token verification request returned unexpected status ".data ++
        ((if rsp.StatusCode < 0 then ['-'] else []) ++
          Nat.toDigits 10 rsp.StatusCode.natAbs) ∧
      decimalValue (Nat.toDigits 10 rsp.StatusCode.natAbs) = rsp.StatusCode.natAbs ∧
      ((if rsp.StatusCode < 0 then ['-'] else []) ++ Nat.toDigits 10 rsp.StatusCode.natAbs)
        <:+: e.Error.data := by
  obtain ⟨req, hreq, rfl⟩ := sent_request env tc ctx token client r hsent
  have hmsg : (GoError.fundamental
      ("token verification request returned unexpected status " ++
        fmtInt rsp.StatusCode)).Error.data
      = "token verification request returned unexpected status ".data ++
        ((if rsp.StatusCode < 0 then ['-'] else []) ++
          Nat.toDigits 10 rsp.StatusCode.natAbs) := by
    simp only [GoError.Error, String.data_append, fmtInt_data]
  refine ⟨.fundamental ("token verification request returned unexpected status " ++
            fmtInt rsp.StatusCode), ?_, ?_, rfl, hmsg, toDigits_readback _, ?_⟩
  · rw [VerifyToken_response env tc ctx token client req rsp body hreq hdo hbody]
    simp [h200, h401]
  · simp [ErrTokenVerificationFailed]
  · rw [hmsg]
    exact (List.suffix_append _ _).isInfix

theorem VerifyToken_status_other_witness :
    ∃ e : GoError,
      (VerifyToken sampleEnv sampleClient Background "abc123" (statusStub 500)).ret
        = .returned (some e) ∧
      e ≠ ErrTokenVerificationFailed ∧
      e.Error = "token verification request returned unexpected status 500" ∧
      ['5', '0', '0'] <:+: e.Error.data := by
  obtain ⟨e, hret, hne, hmsg, _, _, hinf⟩ :=
    VerifyToken_status_other sampleEnv sampleClient Background "abc123" (statusStub 500)
      sampleSent ⟨500, some 7⟩ 7 (by decide) rfl rfl (by decide) (by decide)
  exact ⟨e, hret, hne, hmsg, hinf⟩

/-- C4: whenever the transport's `Do`, called with the request of this call, returns an
error `e` (with or without a response next to it), `VerifyToken` returns the non-nil
error `errors.Wrap(e, "request to verify token failed")`: the error underneath its two
wrapping layers is `e`, `errors.Cause` of it is `errors.Cause(e)`, and its message is
"request to verify token failed: " followed by the message of `e`.  The returned value
is not `ErrTokenVerificationFailed`, also when `e` is, and the status code of a response
that came with the error plays no part. -/
theorem VerifyToken_transport_error (env : Env) (tc : Client) (ctx : Context)
    (token : String) (client : HttpRunner) (r : Request) (orsp : Option Response)
    (e : GoError)
    (hsent : Event.Do r ∈ (VerifyToken env tc ctx token client).trace)
    (hdo : client r = (orsp, some e)) :
    ∃ w : GoError,
      (VerifyToken env tc ctx token client).ret = .returned (some w) ∧
      some w = Wrap (some e) "request to verify token failed" ∧
      (w.causer.bind GoError.causer) = some e ∧
      Cause w = Cause e ∧
      w.Error = "request to verify token failed: " ++ e.Error ∧
      w ≠ ErrTokenVerificationFailed := by
  obtain ⟨req, hreq, rfl⟩ := sent_request env tc ctx token client r hsent
  refine ⟨.withStack (.withMessage e "request to verify token failed"), ?_, rfl, rfl, ?_, ?_, ?_⟩
  · rw [VerifyToken_transport_failed env tc ctx token client req orsp e hreq hdo]
  · simp [Cause]
  · simp [GoError.Error]
  · simp [ErrTokenVerificationFailed]

theorem VerifyToken_transport_error_witness :
    ∃ w : GoError,
      (VerifyToken sampleEnv sampleClient Background "abc123"
          (failStub ErrTokenVerificationFailed)).ret = .returned (some w) ∧
      some w = Wrap (some ErrTokenVerificationFailed) "request to verify token failed" ∧
      (w.causer.bind GoError.causer) = some ErrTokenVerificationFailed ∧
      Cause w = Cause ErrTokenVerificationFailed ∧
      w.Error = "request to verify token failed: " ++ ErrTokenVerificationFailed.Error ∧
      w ≠ ErrTokenVerificationFailed :=
  VerifyToken_transport_error sampleEnv sampleClient Background "abc123"
    (failStub ErrTokenVerificationFailed) sampleSent (some ⟨200, some 7⟩)
    ErrTokenVerificationFailed (by decide) rfl

/-! ## The request handed to the transport -/

/-- C5: every request that `VerifyToken` hands to the transport has method `POST`, the
URL that `http.NewRequest` derives from
`JoinURL(TenantAdmAddr, "/api/internal/v1/tenantadm/tenants/verify")`, no body, and an
`Authorization` header (its only header) whose single value is "Bearer " followed by
the token exactly as given. -/
theorem VerifyToken_request_shape (env : Env) (tc : Client) (ctx : Context)
    (token : String) (client : HttpRunner) (r : Request)
    (hsent : Event.Do r ∈ (VerifyToken env tc ctx token client).trace) :
    r.Method = "POST" ∧
    env.parseURL (env.JoinURL tc.conf.TenantAdmAddr
        "/api/internal/v1/tenantadm/tenants/verify") = .ok r.URL ∧
    r.Body = none ∧
    r.Header.Values "Authorization" = ["Bearer " ++ token] ∧
    r.Header = [("Authorization", ["Bearer " ++ token])] := by
  obtain ⟨req, hreq, rfl⟩ := sent_request env tc ctx token client r hsent
  rw [NewRequest_POST] at hreq
  have hurl : TenantVerifyUri = "/api/internal/v1/tenantadm/tenants/verify" := rfl
  rw [hurl] at hreq
  cases hp : env.parseURL (env.JoinURL tc.conf.TenantAdmAddr
      "/api/internal/v1/tenantadm/tenants/verify") with
  | error err => rw [hp] at hreq; cases hreq
  | ok u =>
    rw [hp] at hreq
    injection hreq with hreq
    subst hreq
    simp [outgoing, Request.WithContext, Header.Add, Header.Values, Header.get, Header.set,
      canonical_Authorization]

theorem VerifyToken_request_shape_witness :
    sampleSent.Method = "POST" ∧
    sampleEnv.parseURL (sampleEnv.JoinURL sampleClient.conf.TenantAdmAddr
        "/api/internal/v1/tenantadm/tenants/verify") = .ok sampleSent.URL ∧
    sampleSent.Body = none ∧
    sampleSent.Header.Values "Authorization" = ["Bearer " ++ "abc123"] ∧
    sampleSent.Header = [("Authorization", ["Bearer " ++ "abc123"])] :=
  VerifyToken_request_shape sampleEnv sampleClient Background "abc123" (statusStub 200)
    sampleSent (by decide)

/-! ## Failure to construct the request -/

/-- C8: when `http.NewRequest` fails with `e`, `VerifyToken` returns the non-nil error
`errors.Wrap(e, "failed to create request to tenant administrator")`, whose message
starts with "failed to create request" and continues with the message of `e`, and it
does nothing else: the trace is empty, so `Do` is not invoked. -/
theorem VerifyToken_construction_error (env : Env) (tc : Client) (ctx : Context)
    (token : String) (client : HttpRunner) (e : GoError)
    (hreq : NewRequest env MethodPost (env.JoinURL tc.conf.TenantAdmAddr TenantVerifyUri) none
              = .error e) :
    ∃ w : GoError,
      (VerifyToken env tc ctx token client).ret = .returned (some w) ∧
      some w = Wrap (some e) "failed to create request to tenant administrator" ∧
      (w.causer.bind GoError.causer) = some e ∧
      w.Error = "failed to create request to tenant administrator: " ++ e.Error ∧
      "failed to create request".data <+: w.Error.data ∧
      (VerifyToken env tc ctx token client).trace = [] ∧
      ∀ r, Event.Do r ∉ (VerifyToken env tc ctx token client).trace := by
  rw [VerifyToken_construction_failed env tc ctx token client e hreq]
  refine ⟨.withStack (.withMessage e "failed to create request to tenant administrator"),
    rfl, rfl, rfl, ?_, ?_, rfl, ?_⟩
  · simp [GoError.Error]
  · simp only [GoError.Error, String.data_append]
    exact ⟨" to tenant administrator".data ++ ": ".data ++ e.Error.data, by simp⟩
  · intro r hr
    simp at hr

theorem VerifyToken_construction_error_witness :
    ∃ w : GoError,
      (VerifyToken sampleEnv badClient Background "abc123" (statusStub 200)).ret
        = .returned (some w) ∧
      some w = Wrap (some (.foreign "parse: invalid URL"))
                "failed to create request to tenant administrator" ∧
      (w.causer.bind GoError.causer) = some (.foreign "parse: invalid URL") ∧
      w.Error = "failed to create request to tenant administrator: " ++
                  (GoError.foreign "parse: invalid URL").Error ∧
      "failed to create request".data <+: w.Error.data ∧
      (VerifyToken sampleEnv badClient Background "abc123" (statusStub 200)).trace = [] ∧
      ∀ r, Event.Do r ∉
        (VerifyToken sampleEnv badClient Background "abc123" (statusStub 200)).trace :=
  VerifyToken_construction_error sampleEnv badClient Background "abc123" (statusStub 200)
    (.foreign "parse: invalid URL") rfl

/-! ## Cancellation -/

/-- C7, as stated, fails: the parent context is already canceled, the transport answers
200 without looking at the context of the request, and `VerifyToken` returns `nil`. -/
theorem VerifyToken_canceled_parent_verified :
    canceledCtx.Err = some CtxErr.Canceled ∧
    (VerifyToken sampleEnv sampleClient canceledCtx "abc123" (statusStub 200)).ret
      = .returned none := by
  decide

/-- C7, amended: with a transport that fails every request whose context is already
done, a parent context that is already canceled makes `VerifyToken` return a non-nil
error, for every configuration and token; the request handed over, if any, carries a
context that is done. -/
theorem VerifyToken_canceled_parent (env : Env) (tc : Client) (ctx : Context)
    (token : String) (client : HttpRunner)
    (hhon : HonoursContext client) (hc : ctx.Err = some CtxErr.Canceled) :
    (∃ e : GoError, (VerifyToken env tc ctx token client).ret = .returned (some e)) ∧
    ∀ r, Event.Do r ∈ (VerifyToken env tc ctx token client).trace →
      r.ctx.Err = some CtxErr.Canceled := by
  have hchild : (WithTimeout env.now env.lag ctx tc.conf.Timeout).Err
      = some CtxErr.Canceled := by
    unfold WithTimeout
    cases hd : ctx.Deadline with
    | none => simp [hc]
    | some cur =>
      by_cases hlt : cur < env.now + tc.conf.Timeout
      · simp [hc, hlt]
      · simp [hc, hlt]
  constructor
  · cases h : NewRequest env MethodPost
        (env.JoinURL tc.conf.TenantAdmAddr TenantVerifyUri) none with
    | error err =>
      rw [VerifyToken_construction_failed env tc ctx token client err h]
      exact ⟨_, rfl⟩
    | ok req =>
      have hdone : (outgoing env tc ctx token req).ctx.Err ≠ none := by
        simp [outgoing, Request.WithContext, hchild]
      obtain ⟨orsp, e, hdo⟩ := hhon _ hdone
      rw [VerifyToken_transport_failed env tc ctx token client req orsp e h hdo]
      exact ⟨_, rfl⟩
  · intro r hr
    obtain ⟨req, _, rfl⟩ := sent_request env tc ctx token client r hr
    simp [outgoing, Request.WithContext, hchild]

theorem HonoursContext_ctxStub : HonoursContext ctxStub := by
  intro r hr
  unfold ctxStub
  cases h : r.ctx.Err with
  | none => exact absurd h hr
  | some _ => exact ⟨_, _, rfl⟩

theorem VerifyToken_canceled_parent_witness :
    HonoursContext ctxStub ∧ canceledCtx.Err = some CtxErr.Canceled ∧
    (∃ e : GoError,
      (VerifyToken sampleEnv sampleClient canceledCtx "abc123" ctxStub).ret
        = .returned (some e)) :=
  ⟨HonoursContext_ctxStub, rfl,
   (VerifyToken_canceled_parent sampleEnv sampleClient canceledCtx "abc123" ctxStub
      HonoursContext_ctxStub rfl).1⟩

/-! ## One attempt, and release of what was acquired -/

/-- C9: the trace of every `VerifyToken` call holds exactly one `Do` step when the
request was constructed and none when it was not, whatever the transport answers
(an error, 200, 401, any other status, or nothing at all). -/
theorem VerifyToken_single_attempt (env : Env) (tc : Client) (ctx : Context)
    (token : String) (client : HttpRunner) :
    (VerifyToken env tc ctx token client).trace.countP Event.isDo =
      (match NewRequest env MethodPost
          (env.JoinURL tc.conf.TenantAdmAddr TenantVerifyUri) none with
       | .ok _ => 1
       | .error _ => 0) := by
  cases h : NewRequest env MethodPost
      (env.JoinURL tc.conf.TenantAdmAddr TenantVerifyUri) none with
  | error err =>
    rw [VerifyToken_construction_failed env tc ctx token client err h]
    rfl
  | ok req =>
    rcases hc : client (outgoing env tc ctx token req) with ⟨orsp, oerr⟩
    cases oerr with
    | some e =>
      rw [VerifyToken_transport_failed env tc ctx token client req orsp e h hc]
      rfl
    | none =>
      cases orsp with
      | none =>
        rw [VerifyToken_nil_response env tc ctx token client req h hc]
        rfl
      | some rsp =>
        cases hb : rsp.Body with
        | none =>
          rw [VerifyToken_nil_body env tc ctx token client req rsp h hc hb]
          rfl
        | some body =>
          rw [VerifyToken_response env tc ctx token client req rsp body h hc hb]
          rfl

/-- C10, as stated, fails: the transport returns, without error, a response with
status 200 whose `Body` is `nil`; `VerifyToken` panics at `defer rsp.Body.Close()` and
the trace of the call holds no `Body.Close` step. -/
theorem VerifyToken_nil_body_not_closed :
    noBodyStub 200 sampleSent = (some ⟨200, none⟩, none) ∧
    Event.Do sampleSent ∈
      (VerifyToken sampleEnv sampleClient Background "abc123" (noBodyStub 200)).trace ∧
    (VerifyToken sampleEnv sampleClient Background "abc123" (noBodyStub 200)).trace.filter
        Event.isBodyClose = [] ∧
    (VerifyToken sampleEnv sampleClient Background "abc123" (noBodyStub 200)).trace.countP
        Event.isBodyClose ≠ 1 := by
  decide

/-- C10, amended: when the transport returned, without error, a response with a non-nil
body (whatever its status), the trace holds exactly one `Body.Close` step, for the body
of that response, and it comes before the end of the call; and whenever the derived
context was created, the trace holds exactly one `cancel` step, for that context, as
its last step: also when the transport failed. -/
theorem VerifyToken_releases (env : Env) (tc : Client) (ctx : Context)
    (token : String) (client : HttpRunner) :
    (∀ r rsp body, Event.Do r ∈ (VerifyToken env tc ctx token client).trace →
      client r = (some rsp, none) → rsp.Body = some body →
      (VerifyToken env tc ctx token client).trace.filter Event.isBodyClose
        = [.BodyClose body]) ∧
    (∀ c, Event.WithTimeout c ∈ (VerifyToken env tc ctx token client).trace →
      (VerifyToken env tc ctx token client).trace.filter Event.isCancel = [.Cancel c] ∧
      (VerifyToken env tc ctx token client).trace.getLast? = some (.Cancel c)) := by
  constructor
  · intro r rsp body hsent hdo hbody
    obtain ⟨req, hreq, rfl⟩ := sent_request env tc ctx token client r hsent
    rw [VerifyToken_response env tc ctx token client req rsp body hreq hdo hbody]
    rfl
  · intro c hcr
    cases h : NewRequest env MethodPost
        (env.JoinURL tc.conf.TenantAdmAddr TenantVerifyUri) none with
    | error err =>
      rw [VerifyToken_construction_failed env tc ctx token client err h] at hcr
      simp at hcr
    | ok req =>
      rcases hc : client (outgoing env tc ctx token req) with ⟨orsp, oerr⟩
      cases oerr with
      | some e =>
        rw [VerifyToken_transport_failed env tc ctx token client req orsp e h hc] at hcr ⊢
        have : c = WithTimeout env.now env.lag ctx tc.conf.Timeout := by simpa using hcr
        subst this
        exact ⟨rfl, rfl⟩
      | none =>
        cases orsp with
        | none =>
          rw [VerifyToken_nil_response env tc ctx token client req h hc] at hcr ⊢
          have : c = WithTimeout env.now env.lag ctx tc.conf.Timeout := by simpa using hcr
          subst this
          exact ⟨rfl, rfl⟩
        | some rsp =>
          cases hb : rsp.Body with
          | none =>
            rw [VerifyToken_nil_body env tc ctx token client req rsp h hc hb] at hcr ⊢
            have : c = WithTimeout env.now env.lag ctx tc.conf.Timeout := by
              simpa using hcr
            subst this
            exact ⟨rfl, rfl⟩
          | some body =>
            rw [VerifyToken_response env tc ctx token client req rsp body h hc hb] at hcr ⊢
            have : c = WithTimeout env.now env.lag ctx tc.conf.Timeout := by
              simpa using hcr
            subst this
            exact ⟨rfl, rfl⟩

theorem VerifyToken_releases_witness :
    (VerifyToken sampleEnv sampleClient Background "abc123" (statusStub 401)).trace.filter
        Event.isBodyClose = [.BodyClose 7] ∧
    (VerifyToken sampleEnv sampleClient Background "abc123"
        (failStub (.foreign "timeout"))).trace.filter Event.isCancel
      = [.Cancel ⟨none, some 10000000000⟩] :=
  ⟨(VerifyToken_releases sampleEnv sampleClient Background "abc123" (statusStub 401)).1
      sampleSent ⟨401, some 7⟩ 7 (by decide) rfl rfl,
   ((VerifyToken_releases sampleEnv sampleClient Background "abc123"
      (failStub (.foreign "timeout"))).2 ⟨none, some 10000000000⟩ (by decide)).1⟩

end Tenant
